import Mathlib

/-!
Shallow embedding of `src/AWS-ORG-DATA-LOAD.py`: a batch job that assumes a
role in each configured AWS account, discovers RDS instances, pulls a full
snapshot from each eligible instance through an engine-dispatched connector,
and consolidates the rows into one central table using truncate-and-load.

External effects (Secrets Manager, STS, RDS discovery, database drivers) are
modelled by an `Env` oracle that fixes the outcome of every call the script
makes; the handler is then a pure function from `Env` to its returned value
plus a trace of the externally visible events, in the order the script
performs them.  Snapshot rows are association lists of column name to cell
value, and Python `dict` semantics (insertion order, replacement on duplicate
key) are modelled explicitly by `dictInsert`/`dictGet`.
-/

set_option autoImplicit false

namespace OrgDataLoad

/-- Cell values of a snapshot row; their structure is never inspected. -/
abbrev Val := String

/-- A snapshot row as produced by a source query: column name to value,
in column order (Python builds it with `dict(zip(columns, row))`). -/
abbrev Row := List (String × Val)

/-- A parsed credential record (the script only threads it through, so it is
modelled opaquely; a falsy parse result is folded into `none`). -/
abbrev Creds := String

/- ============================================================
   Fixed configuration constants of the script.
   ============================================================ -/

def ROLE_NAME : String := "CUST_DBA_AUDIT"

def CENTRAL_REPO_SECRET_NAME : String := "xxx/yyy/zzzzzzzzzzzz/wwwwwwwww"

def CENTRAL_TABLE_NAME : String := "TB_Consolidated_Audit"

def SOURCE_DB_NAME : String := "dba"

def QUERY_ALL : String := "SELECT * FROM TEST_AUDIT"

/-- Per-instance secret name, from the f-string at line 264 of the source. -/
def secretNameFor (accId dbId : String) : String :=
  "xxx/yyy/" ++ accId ++ "/" ++ dbId

/- ============================================================
   Python substring containment (`pat in s`).
   ============================================================ -/

/-- Whether `p` occurs at the start of `s` (on character lists). -/
def subAt : List Char → List Char → Bool
  | [], _ => true
  | _ :: _, [] => false
  | a :: p, b :: s => a == b && subAt p s

/-- Whether `p` occurs anywhere in `s` (on character lists). -/
def subIn (p : List Char) : List Char → Bool
  | [] => subAt p []
  | b :: s => subAt p (b :: s) || subIn p s

/-- Python `pat in s` substring test on strings. -/
def hasSubstr (pat s : String) : Bool :=
  subIn pat.toList s.toList

/-- Python `str.upper()` on column names (ASCII case folding, which is what
the source columns use), written over the character list so that it reduces
inside the kernel. -/
def strUpper (s : String) : String :=
  ⟨s.data.map Char.toUpper⟩

/- ============================================================
   Python dict semantics for the row-normalisation step.
   ============================================================ -/

/-- Insert `(k, v)` into an association list with Python `dict` update
semantics: an existing binding of `k` is overwritten in place, otherwise
the binding is appended at the end. -/
def dictInsert : List (String × Val) → String → Val → List (String × Val)
  | [], k, v => [(k, v)]
  | (k0, v0) :: d, k, v =>
    if k0 = k then (k0, v) :: d else (k0, v0) :: dictInsert d k v

/-- Lookup in an association list built by `dictInsert` (keys are unique,
so first match is the binding). Models Python `dict.get`. -/
def dictGet : List (String × Val) → String → Option Val
  | [], _ => none
  | (k0, v0) :: d, k => if k0 = k then some v0 else dictGet d k

/-- The dict comprehension at line 142 of the source:
`row_upper = \x7bk.upper(): v for k, v in row.items()\x7d`. -/
def buildRowUpper (row : Row) : List (String × Val) :=
  row.foldl (fun d kv => dictInsert d (strUpper kv.fst) kv.snd) []

/-- One `params` tuple built by `save_batch_to_central` (lines 144-152):
the tenant name, the source instance identifier, and the five consolidated
columns looked up by upper-cased key. -/
structure ConsolidatedRecord where
  sourceAccount : String
  sourceDB : String
  id : Option Val
  description : Option Val
  status : Option Val
  udate : Option Val
  installdate : Option Val
deriving DecidableEq

/-- Mapping of one snapshot row onto a `params` tuple, per lines 142-152. -/
def rowToParams (source_account source_db : String) (row : Row) :
    ConsolidatedRecord :=
  let row_upper := buildRowUpper row
  ⟨source_account, source_db,
    dictGet row_upper "ID",
    dictGet row_upper "DESCRIPTION",
    dictGet row_upper "STATUS",
    dictGet row_upper "UDATE",
    dictGet row_upper "INSTALLDATE"⟩

/-- Writer `save_batch_to_central` (lines 127-163).  `writeOk` is the oracle
for whether `executemany`/`commit` succeeds.  An empty batch returns 0 before
any insert is attempted; on success the count is the number of params tuples;
on failure the transaction is rolled back and the exception re-raised,
modelled by `Except.error`. -/
def save_batch_to_central (writeOk : Bool) (data_rows : List Row)
    (source_account source_db : String) : Except Unit Nat :=
  if data_rows.isEmpty then Except.ok 0
  else
    let params := data_rows.map (rowToParams source_account source_db)
    if writeOk then Except.ok params.length else Except.error ()

/- ============================================================
   Secret resolver.
   ============================================================ -/

/-- Possible outcomes of one `get_secret_value` call plus the parsing of its
response, as seen by `get_secret_local` (lines 79-86). -/
inductive SecretOutcome where
  /-- The call raised `botocore.exceptions.ClientError`. -/
  | clientError
  /-- The call raised an exception that is not a `ClientError`
  (for example a `BotoCoreError` such as an endpoint connection failure). -/
  | otherError
  /-- The call succeeded but the response has no `SecretString` entry. -/
  | noSecretString
  /-- The call succeeded with a `SecretString`; `parsed` is the result of
  `json.loads`: `some c` for a truthy credential record, `none` when
  `json.loads` raises (malformed JSON). -/
  | secretString (parsed : Option Creds)
deriving DecidableEq

/-- Resolver `get_secret_local` (lines 79-86).  Only `ClientError` is caught
(logged and turned into `None`); a missing `SecretString` falls through to
`return None`; any other exception, including a `json.loads` failure,
propagates to the caller, modelled by `Except.error`. -/
def get_secret_local : SecretOutcome → Except Unit (Option Creds)
  | SecretOutcome.clientError => Except.ok none
  | SecretOutcome.otherError => Except.error ()
  | SecretOutcome.noSecretString => Except.ok none
  | SecretOutcome.secretString (some c) => Except.ok (some c)
  | SecretOutcome.secretString none => Except.error ()

/- ============================================================
   Source connectors.
   ============================================================ -/

/-- Outcome oracle for one source-database connection attempt. -/
inductive ConnOutcome where
  /-- `connect` itself raises: no connection object ever exists. -/
  | connectFail
  /-- `connect` succeeds but executing or fetching the query raises. -/
  | queryFail
  /-- The full query round trip succeeds with these rows. -/
  | ok (rows : List Row)
deriving DecidableEq

/-- Connector `execute_mssql_full` (lines 169-191).  Returns the result rows
together with two observation bits: whether a connection was opened, and
whether `conn.close()` ran before the function returned.  With the driver
absent it returns `[]` before any connection attempt; on a query failure the
`except` block returns `[]` without closing the connection. -/
def execute_mssql_full (hasMssql : Bool) (o : ConnOutcome) (_creds : Creds)
    (_host : Option String) (_db_name _query : String) :
    List Row × Bool × Bool :=
  if !hasMssql then ([], false, false)
  else
    match o with
    | ConnOutcome.connectFail => ([], false, false)
    | ConnOutcome.queryFail => ([], true, false)
    | ConnOutcome.ok rows => (rows, true, true)

/-- Connector `execute_postgres_full` (lines 193-212).  Same observable shape
as `execute_mssql_full`: the `with` block closes only the cursor, and
`conn.close()` at line 208 is reached only on the success path. -/
def execute_postgres_full (hasPostgres : Bool) (o : ConnOutcome) (_creds : Creds)
    (_host : Option String) (_db_name _query : String) :
    List Row × Bool × Bool :=
  if !hasPostgres then ([], false, false)
  else
    match o with
    | ConnOutcome.connectFail => ([], false, false)
    | ConnOutcome.queryFail => ([], true, false)
    | ConnOutcome.ok rows => (rows, true, true)

/-- Central connection factory `get_central_connection` (lines 99-110):
raises when the PostgreSQL driver is absent, else connects (the oracle bit
`connectOk` decides whether `psycopg2.connect` succeeds). -/
def get_central_connection (hasPostgres connectOk : Bool) :
    Except Unit Unit :=
  if !hasPostgres then Except.error ()
  else if connectOk then Except.ok () else Except.error ()

/-- Writer `truncate_central_table` (lines 112-125): on failure the
exception is re-raised after rollback. -/
def truncate_central_table (truncateOk : Bool) : Except Unit Unit :=
  if truncateOk then Except.ok () else Except.error ()

/- ============================================================
   Orchestrator `lambda_handler` (lines 218-294).
   ============================================================ -/

/-- One configured entry of `TARGET_ACCOUNTS`. -/
structure Account where
  accId : String
  name : String
deriving DecidableEq

/-- One instance record returned by `describe_db_instances`. -/
structure DBInstance where
  dbId : String
  engine : String
  endpointAddr : Option String
  status : String
deriving DecidableEq

/-- Externally visible events of one run, in the order the script performs
them.  Instance-level events are keyed by (account id, instance id). -/
inductive Event where
  /-- `get_secret_local` called for the central repository secret. -/
  | fetchCentralSecret
  /-- `get_central_connection` invoked. -/
  | centralConnect
  /-- `truncate_central_table` invoked. -/
  | truncate
  /-- `assume_role` invoked for an account. -/
  | assumeRole (accId : String)
  /-- `describe_db_instances` invoked for an account. -/
  | describeDBs (accId : String)
  /-- `get_secret_local` invoked for a per-instance secret. -/
  | secretLookup (accId dbId : String)
  /-- `execute_mssql_full` invoked for an instance. -/
  | connMssql (accId dbId : String)
  /-- `execute_postgres_full` invoked for an instance. -/
  | connPostgres (accId dbId : String)
  /-- `save_batch_to_central` invoked (with a non-empty batch). -/
  | batchWrite (accId dbId : String)
  /-- `central_conn.close()` at line 289. -/
  | closeCentral
deriving DecidableEq

/-- Oracle environment fixing the outcome of every external call, plus the
static configuration (`TARGET_ACCOUNTS` and `BLACKLIST_RDS` are modelled as
configuration fields, per the spec's explicit-configuration note). -/
structure Env where
  centralSecret : SecretOutcome
  hasPostgres : Bool
  hasMssql : Bool
  centralConnect : Bool
  truncateOk : Bool
  assumeRoleOk : String → Bool
  describeDBs : String → Option (List DBInstance)
  instanceSecret : String → String → SecretOutcome
  sourceConn : String → ConnOutcome
  writeOk : String → Bool
  accounts : List Account
  blacklist : List String

/-- Mutable run state of the handler: `total_synced`, `report` (kept as
(instance id, inserted count) pairs; the f-string at line 285 is rendered
from exactly these two values), and the event trace. -/
structure St where
  total : Nat
  report : List (String × Nat)
  tr : List Event
deriving DecidableEq

/-- Rendering of one report line, the f-string at line 285. -/
def renderLine (p : String × Nat) : String :=
  p.fst ++ ": " ++ toString p.snd ++ " records loaded"

/-- Engine dispatch (lines 275-279): substring match on the engine string,
SQL Server checked first.  Returns the connector-invocation events and the
rows the chosen connector produced (no match leaves `full_data = []`). -/
def dispatchConnector (env : Env) (acc : Account) (db : DBInstance)
    (creds : Creds) : List Event × List Row :=
  if hasSubstr "sqlserver" db.engine then
    ([Event.connMssql acc.accId db.dbId],
      (execute_mssql_full env.hasMssql (env.sourceConn db.dbId) creds
        db.endpointAddr SOURCE_DB_NAME QUERY_ALL).fst)
  else if hasSubstr "postgres" db.engine then
    ([Event.connPostgres acc.accId db.dbId],
      (execute_postgres_full env.hasPostgres (env.sourceConn db.dbId) creds
        db.endpointAddr SOURCE_DB_NAME QUERY_ALL).fst)
  else
    ([], [])

/-- The eligibility guard at line 260 of the source, verbatim: the instance
is skipped when its identifier is blacklisted or its status is not
`available`. -/
def ineligibleB (env : Env) (db : DBInstance) : Bool :=
  env.blacklist.contains db.dbId || db.status ≠ "available"

/-- Body of the inner instance loop (lines 255-287).  `Except.error tr`
models an exception escaping the loop (only `save_batch_to_central` or an
uncaught secret-resolver error can do this); the payload is the trace at
the moment of the raise. -/
def runInstance (env : Env) (acc : Account) (db : DBInstance) (st : St) :
    Except (List Event) St :=
  if ineligibleB env db then
    Except.ok st
  else
    let tr1 := st.tr ++ [Event.secretLookup acc.accId db.dbId]
    match get_secret_local (env.instanceSecret acc.accId db.dbId) with
    | Except.error _ => Except.error tr1
    | Except.ok none => Except.ok ⟨st.total, st.report, tr1⟩
    | Except.ok (some creds) =>
      let fetched := dispatchConnector env acc db creds
      let tr2 := tr1 ++ fetched.fst
      let full_data := fetched.snd
      if full_data.isEmpty then Except.ok ⟨st.total, st.report, tr2⟩
      else
        let tr3 := tr2 ++ [Event.batchWrite acc.accId db.dbId]
        match save_batch_to_central (env.writeOk db.dbId) full_data
            acc.name db.dbId with
        | Except.error _ => Except.error tr3
        | Except.ok inserted =>
          Except.ok ⟨st.total + inserted,
            st.report ++ [(db.dbId, inserted)], tr3⟩

/-- The instance loop over one account's discovered instances. -/
def runInstances (env : Env) (acc : Account) :
    List DBInstance → St → Except (List Event) St
  | [], st => Except.ok st
  | db :: dbs, st =>
    match runInstance env acc db st with
    | Except.error tr => Except.error tr
    | Except.ok st1 => runInstances env acc dbs st1

/-- Body of the outer account loop (lines 240-287): role assumption
(failure logged, account skipped), instance discovery (failure logged,
account skipped), then the instance loop. -/
def runAccount (env : Env) (st : St) (acc : Account) :
    Except (List Event) St :=
  let tr1 := st.tr ++ [Event.assumeRole acc.accId]
  if !env.assumeRoleOk acc.accId then Except.ok ⟨st.total, st.report, tr1⟩
  else
    let tr2 := tr1 ++ [Event.describeDBs acc.accId]
    match env.describeDBs acc.accId with
    | none => Except.ok ⟨st.total, st.report, tr2⟩
    | some dbs => runInstances env acc dbs ⟨st.total, st.report, tr2⟩

/-- The account loop over the configured accounts. -/
def runAccounts (env : Env) :
    List Account → St → Except (List Event) St
  | [], st => Except.ok st
  | acc :: accs, st =>
    match runAccount env st acc with
    | Except.error tr => Except.error tr
    | Except.ok st1 => runAccounts env accs st1

/-- The value `lambda_handler` produces.  `response 500 body` and
`success total details` are the two returned dicts (the 200 body is
`json.dumps` of a status string, `total_records` and `details`, carried
structurally); `raised` models an exception escaping `lambda_handler`
itself, in which case no value is returned at all. -/
inductive RunResult where
  | fatal (body : String)
  | success (total : Nat) (details : List String)
  | raised
deriving DecidableEq

/-- Handler `lambda_handler` (lines 218-294) as a pure function of the
oracle environment, returning the result together with the event trace. -/
def lambda_handler (env : Env) : RunResult × List Event :=
  match get_secret_local env.centralSecret with
  | Except.error _ => (RunResult.raised, [Event.fetchCentralSecret])
  | Except.ok none =>
    (RunResult.fatal "Error: No main repository credentials found.",
      [Event.fetchCentralSecret])
  | Except.ok (some _) =>
    match get_central_connection env.hasPostgres env.centralConnect with
    | Except.error _ =>
      (RunResult.fatal "Fatal error on connecting/cleaning up",
        [Event.fetchCentralSecret, Event.centralConnect])
    | Except.ok _ =>
      match truncate_central_table env.truncateOk with
      | Except.error _ =>
        (RunResult.fatal "Fatal error on connecting/cleaning up",
          [Event.fetchCentralSecret, Event.centralConnect, Event.truncate])
      | Except.ok _ =>
        match runAccounts env env.accounts
            ⟨0, [], [Event.fetchCentralSecret, Event.centralConnect,
              Event.truncate]⟩ with
        | Except.error tr => (RunResult.raised, tr)
        | Except.ok st =>
          (RunResult.success st.total (st.report.map renderLine),
            st.tr ++ [Event.closeCentral])

/- ============================================================
   Predicates and helper functions used by the statements.
   ============================================================ -/

/-- The value of the last source column whose upper-cased name equals
`field` (Python dict comprehensions are last-wins on duplicate keys). -/
def lastColumn (row : Row) (field : String) : Option Val :=
  (row.reverse.find? (fun p => strUpper p.fst == field)).map Prod.snd

/-- Sum of the per-instance counts of a report. -/
def sumCounts (rep : List (String × Nat)) : Nat :=
  (rep.map Prod.snd).sum

/-- Trace of the state or of the escaped exception. -/
def trOf : Except (List Event) St → List Event
  | Except.ok st => st.tr
  | Except.error tr => tr

/-- The events the instance-loop body can emit for one instance. -/
def instEvent (a d : String) (e : Event) : Prop :=
  e = Event.secretLookup a d ∨ e = Event.connMssql a d ∨
  e = Event.connPostgres a d ∨ e = Event.batchWrite a d

/-- The events the account-loop body can emit for one account: role
assumption, discovery, and instance events of eligible discovered
instances. -/
def accountEvent (env : Env) (acc : Account) (e : Event) : Prop :=
  e = Event.assumeRole acc.accId ∨ e = Event.describeDBs acc.accId ∨
  ∃ dbs, env.describeDBs acc.accId = some dbs ∧
    ∃ db ∈ dbs, ineligibleB env db = false ∧ instEvent acc.accId db.dbId e

/-- Key-case equivalence of two rows: same length, and position by position
the keys agree up to case (equal after upper-casing) and the values agree. -/
def KeyCaseEquiv (r1 r2 : Row) : Prop :=
  List.Forall₂ (fun p q => strUpper p.fst = strUpper q.fst ∧ p.snd = q.snd) r1 r2

/- ============================================================
   Concrete environments used by closed statements.
   ============================================================ -/

/-- A run in which everything succeeds except the central batch write for
the single discovered instance. -/
def envWriteFail : Env :=
  ⟨SecretOutcome.secretString (some "cc"), true, true, true, true,
    fun _ => true,
    fun _ => some [⟨"db9", "aurora-postgresql", some "h", "available"⟩],
    fun _ _ => SecretOutcome.secretString (some "ic"),
    fun _ => ConnOutcome.ok [[("id", "1")]],
    fun _ => false,
    [⟨"acct1", "Acc One"⟩], []⟩

/-- A fully successful run: one account, one available PostgreSQL instance,
one snapshot row, batch write succeeds. -/
def envHappy : Env :=
  ⟨SecretOutcome.secretString (some "cc"), true, true, true, true,
    fun _ => true,
    fun _ => some [⟨"db9", "aurora-postgresql", some "h", "available"⟩],
    fun _ _ => SecretOutcome.secretString (some "ic"),
    fun _ => ConnOutcome.ok [[("id", "1")]],
    fun _ => true,
    [⟨"acct1", "Acc One"⟩], []⟩

/-- A run whose single connector call returns zero rows. -/
def envZeroRows : Env :=
  ⟨SecretOutcome.secretString (some "cc"), true, true, true, true,
    fun _ => true,
    fun _ => some [⟨"db9", "aurora-postgresql", some "h", "available"⟩],
    fun _ _ => SecretOutcome.secretString (some "ic"),
    fun _ => ConnOutcome.ok [],
    fun _ => true,
    [⟨"acct1", "Acc One"⟩], []⟩

/-- A run in which every per-instance secret lookup raises `ClientError`
(secret not found). -/
def envSecretMissing : Env :=
  ⟨SecretOutcome.secretString (some "cc"), true, true, true, true,
    fun _ => true,
    fun _ => some [⟨"db9", "aurora-postgresql", some "h", "available"⟩],
    fun _ _ => SecretOutcome.clientError,
    fun _ => ConnOutcome.ok [[("id", "1")]],
    fun _ => true,
    [⟨"acct1", "Acc One"⟩], []⟩

/-- A run where the central credentials resolve but the central connection
attempt fails. -/
def envConnFail : Env :=
  ⟨SecretOutcome.secretString (some "cc"), true, true, false, true,
    fun _ => true,
    fun _ => some [⟨"db9", "aurora-postgresql", some "h", "available"⟩],
    fun _ _ => SecretOutcome.secretString (some "ic"),
    fun _ => ConnOutcome.ok [[("id", "1")]],
    fun _ => true,
    [⟨"acct1", "Acc One"⟩], []⟩

/-- A run where the central repository secret is missing. -/
def envCredsMissing : Env :=
  ⟨SecretOutcome.clientError, true, true, true, true,
    fun _ => true,
    fun _ => some [⟨"db9", "aurora-postgresql", some "h", "available"⟩],
    fun _ _ => SecretOutcome.secretString (some "ic"),
    fun _ => ConnOutcome.ok [[("id", "1")]],
    fun _ => true,
    [⟨"acct1", "Acc One"⟩], []⟩

/-- A run discovering one blacklisted instance and one stopped instance. -/
def envBlacklisted : Env :=
  ⟨SecretOutcome.secretString (some "cc"), true, true, true, true,
    fun _ => true,
    fun _ => some [⟨"db-1", "postgres", some "h", "available"⟩,
      ⟨"db-1", "sqlserver-ee", some "h2", "stopped"⟩],
    fun _ _ => SecretOutcome.secretString (some "ic"),
    fun _ => ConnOutcome.ok [[("id", "1")]],
    fun _ => true,
    [⟨"acct1", "Acc One"⟩], ["db-1"]⟩

/-- An instance whose engine string contains both `sqlserver` and
`postgres`. -/
def dbBothEngines : DBInstance :=
  ⟨"dbx", "sqlserver-postgres", some "h", "available"⟩

/-- An instance whose engine string contains neither `sqlserver` nor
`postgres`. -/
def dbMysql : DBInstance :=
  ⟨"dbm", "mysql", some "h", "available"⟩

/-- A minimal environment for exercising the dispatcher on one account. -/
def envDispatch : Env :=
  ⟨SecretOutcome.secretString (some "cc"), true, true, true, true,
    fun _ => true,
    fun _ => some [],
    fun _ _ => SecretOutcome.secretString (some "ic"),
    fun _ => ConnOutcome.ok [[("id", "1")]],
    fun _ => true,
    [⟨"acct1", "Acc One"⟩], []⟩

/- ============================================================
   Dictionary lemmas (row normalisation).
   ============================================================ -/

theorem dictGet_dictInsert (d : List (String × Val)) (k0 k : String) (v : Val) :
    dictGet (dictInsert d k0 v) k = if k0 = k then some v else dictGet d k := by
  induction d with
  | nil => simp [dictInsert, dictGet]
  | cons p d ih =>
    obtain ⟨a, b⟩ := p
    by_cases hak0 : a = k0
    · subst hak0
      by_cases hk : a = k <;> simp [dictInsert, dictGet, hk]
    · by_cases hk : a = k
      · subst hk
        have : ¬ k0 = a := fun h => hak0 h.symm
        simp [dictInsert, dictGet, hak0, this]
      · simp [dictInsert, dictGet, hak0, hk, ih]

theorem buildRowUpper_concat (row : Row) (p : String × Val) :
    buildRowUpper (row ++ [p]) =
      dictInsert (buildRowUpper row) (strUpper p.fst) p.snd := by
  simp [buildRowUpper, List.foldl_append]

theorem dictGet_buildRowUpper (row : Row) (k : String) :
    dictGet (buildRowUpper row) k = lastColumn row k := by
  induction row using List.reverseRecOn with
  | nil => simp [buildRowUpper, dictGet, lastColumn]
  | append_singleton l p ih =>
    rw [buildRowUpper_concat, dictGet_dictInsert]
    simp only [lastColumn, List.reverse_append, List.reverse_singleton,
      List.singleton_append, List.find?]
    by_cases h : strUpper p.fst = k
    · simp [h]
    · simp only [h, if_false]
      have hb : (strUpper p.fst == k) = false := by
        simp [h]
      rw [hb]
      exact ih

theorem buildRowUpper_congr {r1 r2 : Row} (h : KeyCaseEquiv r1 r2) :
    buildRowUpper r1 = buildRowUpper r2 := by
  suffices H : ∀ d : List (String × Val),
      r1.foldl (fun d kv => dictInsert d (strUpper kv.fst) kv.snd) d =
      r2.foldl (fun d kv => dictInsert d (strUpper kv.fst) kv.snd) d by
    exact H []
  induction h with
  | nil => intro d; rfl
  | cons hpq _ ih =>
    intro d
    simp only [List.foldl_cons]
    rw [hpq.1, hpq.2]
    exact ih _

/- ============================================================
   Trace lemmas for the tenant/instance loops.
   ============================================================ -/

theorem dispatchConnector_events (env : Env) (acc : Account)
    (db : DBInstance) (creds : Creds) :
    ∀ e ∈ (dispatchConnector env acc db creds).fst,
      e = Event.connMssql acc.accId db.dbId ∨
      e = Event.connPostgres acc.accId db.dbId := by
  intro e he
  unfold dispatchConnector at he
  by_cases h1 : hasSubstr "sqlserver" db.engine
  · simp [h1] at he
    exact Or.inl he
  · by_cases h2 : hasSubstr "postgres" db.engine
    · simp [h1, h2] at he
      exact Or.inr he
    · simp [h1, h2] at he

theorem runInstance_trace (env : Env) (acc : Account) (db : DBInstance)
    (st : St) :
    ∃ ex, trOf (runInstance env acc db st) = st.tr ++ ex ∧
      ∀ e ∈ ex, ineligibleB env db = false ∧
        instEvent acc.accId db.dbId e := by
  unfold runInstance
  by_cases hg : ineligibleB env db
  · refine ⟨[], ?_, ?_⟩
    · rw [if_pos]
      · simp [trOf]
      · exact hg
    · intro e he; simp at he
  · rw [if_neg hg]
    have hgf : ineligibleB env db = false := by
      exact Bool.eq_false_iff.mpr hg
    match hsec : get_secret_local (env.instanceSecret acc.accId db.dbId) with
    | Except.error u =>
      refine ⟨[Event.secretLookup acc.accId db.dbId], by simp [trOf], ?_⟩
      intro e he
      simp at he
      exact ⟨hgf, Or.inl he⟩
    | Except.ok none =>
      refine ⟨[Event.secretLookup acc.accId db.dbId], by simp [trOf], ?_⟩
      intro e he
      simp at he
      exact ⟨hgf, Or.inl he⟩
    | Except.ok (some creds) =>
      simp only []
      by_cases hemp : (dispatchConnector env acc db creds).snd.isEmpty
      · rw [if_pos hemp]
        refine ⟨[Event.secretLookup acc.accId db.dbId] ++
          (dispatchConnector env acc db creds).fst, by simp [trOf], ?_⟩
        intro e he
        refine ⟨hgf, ?_⟩
        rcases List.mem_append.mp he with h | h
        · simp at h
          exact Or.inl h
        · rcases dispatchConnector_events env acc db creds e h with h | h
          · exact Or.inr (Or.inl h)
          · exact Or.inr (Or.inr (Or.inl h))
      · rw [if_neg hemp]
        have hmem : ∀ e ∈ [Event.secretLookup acc.accId db.dbId] ++
            (dispatchConnector env acc db creds).fst ++
            [Event.batchWrite acc.accId db.dbId],
            instEvent acc.accId db.dbId e := by
          intro e he
          rcases List.mem_append.mp he with h | h
          · rcases List.mem_append.mp h with h | h
            · simp at h
              exact Or.inl h
            · rcases dispatchConnector_events env acc db creds e h with h | h
              · exact Or.inr (Or.inl h)
              · exact Or.inr (Or.inr (Or.inl h))
          · simp at h
            exact Or.inr (Or.inr (Or.inr h))
        match hw : save_batch_to_central (env.writeOk db.dbId)
            (dispatchConnector env acc db creds).snd acc.name db.dbId with
        | Except.error u =>
          refine ⟨[Event.secretLookup acc.accId db.dbId] ++
            (dispatchConnector env acc db creds).fst ++
            [Event.batchWrite acc.accId db.dbId], by simp [trOf], ?_⟩
          intro e he
          exact ⟨hgf, hmem e he⟩
        | Except.ok inserted =>
          refine ⟨[Event.secretLookup acc.accId db.dbId] ++
            (dispatchConnector env acc db creds).fst ++
            [Event.batchWrite acc.accId db.dbId], by simp [trOf], ?_⟩
          intro e he
          exact ⟨hgf, hmem e he⟩

theorem runInstances_trace (env : Env) (acc : Account) (dbs : List DBInstance) :
    ∀ st : St, ∃ ex, trOf (runInstances env acc dbs st) = st.tr ++ ex ∧
      ∀ e ∈ ex, ∃ db ∈ dbs, ineligibleB env db = false ∧
        instEvent acc.accId db.dbId e := by
  induction dbs with
  | nil =>
    intro st
    exact ⟨[], by simp [runInstances, trOf], by simp⟩
  | cons db dbs ih =>
    intro st
    obtain ⟨ex1, htr1, hev1⟩ := runInstance_trace env acc db st
    unfold runInstances
    match hri : runInstance env acc db st with
    | Except.error tr =>
      rw [hri] at htr1
      simp only [trOf] at htr1
      refine ⟨ex1, by simpa [trOf] using htr1, ?_⟩
      intro e he
      obtain ⟨hg, hie⟩ := hev1 e he
      exact ⟨db, by simp, hg, hie⟩
    | Except.ok st1 =>
      rw [hri] at htr1
      simp only [trOf] at htr1
      obtain ⟨ex2, htr2, hev2⟩ := ih st1
      refine ⟨ex1 ++ ex2, ?_, ?_⟩
      · rw [htr2, htr1, List.append_assoc]
      · intro e he
        rcases List.mem_append.mp he with h | h
        · obtain ⟨hg, hie⟩ := hev1 e h
          exact ⟨db, by simp, hg, hie⟩
        · obtain ⟨db2, hdb2, hg, hie⟩ := hev2 e h
          exact ⟨db2, by simp [hdb2], hg, hie⟩

theorem runAccount_trace (env : Env) (st : St) (acc : Account) :
    ∃ ex, trOf (runAccount env st acc) = st.tr ++ ex ∧
      ∀ e ∈ ex, accountEvent env acc e := by
  unfold runAccount
  cases har : env.assumeRoleOk acc.accId with
  | false =>
    refine ⟨[Event.assumeRole acc.accId], by simp [har, trOf], ?_⟩
    intro e he
    simp at he
    exact Or.inl he
  | true =>
    match hdbs : env.describeDBs acc.accId with
    | none =>
      refine ⟨[Event.assumeRole acc.accId, Event.describeDBs acc.accId],
        by simp [har, hdbs, trOf], ?_⟩
      intro e he
      simp at he
      rcases he with h | h
      · exact Or.inl h
      · exact Or.inr (Or.inl h)
    | some dbs =>
      obtain ⟨ex2, htr2, hev2⟩ := runInstances_trace env acc dbs
        ⟨st.total, st.report, st.tr ++ [Event.assumeRole acc.accId] ++
          [Event.describeDBs acc.accId]⟩
      refine ⟨[Event.assumeRole acc.accId, Event.describeDBs acc.accId] ++ ex2,
        ?_, ?_⟩
      · simp only [har, hdbs]
        simp only [Bool.not_true]
        rw [if_neg (by simp)]
        rw [htr2]
        simp [List.append_assoc]
      · intro e he
        rcases List.mem_append.mp he with h | h
        · simp at h
          rcases h with h | h
          · exact Or.inl h
          · exact Or.inr (Or.inl h)
        · obtain ⟨db, hdb, hg, hie⟩ := hev2 e h
          exact Or.inr (Or.inr ⟨dbs, hdbs, db, hdb, hg, hie⟩)

theorem runAccounts_trace (env : Env) (accs : List Account) :
    ∀ st : St, ∃ ex, trOf (runAccounts env accs st) = st.tr ++ ex ∧
      ∀ e ∈ ex, ∃ acc ∈ accs, accountEvent env acc e := by
  induction accs with
  | nil =>
    intro st
    exact ⟨[], by simp [runAccounts, trOf], by simp⟩
  | cons acc accs ih =>
    intro st
    obtain ⟨ex1, htr1, hev1⟩ := runAccount_trace env st acc
    unfold runAccounts
    match hra : runAccount env st acc with
    | Except.error tr =>
      rw [hra] at htr1
      simp only [trOf] at htr1
      refine ⟨ex1, by simpa [trOf] using htr1, ?_⟩
      intro e he
      exact ⟨acc, by simp, hev1 e he⟩
    | Except.ok st1 =>
      rw [hra] at htr1
      simp only [trOf] at htr1
      obtain ⟨ex2, htr2, hev2⟩ := ih st1
      refine ⟨ex1 ++ ex2, ?_, ?_⟩
      · rw [htr2, htr1, List.append_assoc]
      · intro e he
        rcases List.mem_append.mp he with h | h
        · exact ⟨acc, by simp, hev1 e h⟩
        · obtain ⟨acc2, hacc2, hev⟩ := hev2 e h
          exact ⟨acc2, by simp [hacc2], hev⟩

/- ============================================================
   Value lemmas: the report and the running total.
   ============================================================ -/

theorem runInstance_val (env : Env) (acc : Account) (db : DBInstance)
    (st st1 : St) (h : runInstance env acc db st = Except.ok st1) :
    ∃ rep, st1.report = st.report ++ rep ∧
      st1.total = st.total + sumCounts rep := by
  unfold runInstance at h
  split at h
  · cases h
    exact ⟨[], by simp, by simp [sumCounts]⟩
  · split at h
    · cases h
    · cases h
      exact ⟨[], by simp, by simp [sumCounts]⟩
    · dsimp only at h
      split at h
      · cases h
        exact ⟨[], by simp, by simp [sumCounts]⟩
      · split at h
        · cases h
        · cases h
          rename_i inserted heq
          exact ⟨[(db.dbId, inserted)], by simp, by simp [sumCounts]⟩

theorem runInstances_val (env : Env) (acc : Account) (dbs : List DBInstance) :
    ∀ st st1 : St, runInstances env acc dbs st = Except.ok st1 →
      ∃ rep, st1.report = st.report ++ rep ∧
        st1.total = st.total + sumCounts rep := by
  induction dbs with
  | nil =>
    intro st st1 h
    unfold runInstances at h
    cases h
    exact ⟨[], by simp, by simp [sumCounts]⟩
  | cons db dbs ih =>
    intro st st1 h
    unfold runInstances at h
    match hri : runInstance env acc db st with
    | Except.error tr => rw [hri] at h; cases h
    | Except.ok stm =>
      rw [hri] at h
      obtain ⟨rep1, hr1, ht1⟩ := runInstance_val env acc db st stm hri
      obtain ⟨rep2, hr2, ht2⟩ := ih stm st1 h
      refine ⟨rep1 ++ rep2, ?_, ?_⟩
      · rw [hr2, hr1, List.append_assoc]
      · rw [ht2, ht1]
        simp [sumCounts, Nat.add_assoc]

theorem runAccount_val (env : Env) (st : St) (acc : Account) (st1 : St)
    (h : runAccount env st acc = Except.ok st1) :
    ∃ rep, st1.report = st.report ++ rep ∧
      st1.total = st.total + sumCounts rep := by
  unfold runAccount at h
  split at h
  · cases h
    exact ⟨[], by simp, by simp [sumCounts]⟩
  · split at h
    · cases h
      exact ⟨[], by simp, by simp [sumCounts]⟩
    · rename_i dbs hdbs
      obtain ⟨rep, hr, ht⟩ := runInstances_val env acc dbs _ st1 h
      exact ⟨rep, by simpa using hr, by simpa using ht⟩

theorem runAccounts_val (env : Env) (accs : List Account) :
    ∀ st st1 : St, runAccounts env accs st = Except.ok st1 →
      ∃ rep, st1.report = st.report ++ rep ∧
        st1.total = st.total + sumCounts rep := by
  induction accs with
  | nil =>
    intro st st1 h
    unfold runAccounts at h
    cases h
    exact ⟨[], by simp, by simp [sumCounts]⟩
  | cons acc accs ih =>
    intro st st1 h
    unfold runAccounts at h
    match hra : runAccount env st acc with
    | Except.error tr => rw [hra] at h; cases h
    | Except.ok stm =>
      rw [hra] at h
      obtain ⟨rep1, hr1, ht1⟩ := runAccount_val env st acc stm hra
      obtain ⟨rep2, hr2, ht2⟩ := ih stm st1 h
      refine ⟨rep1 ++ rep2, ?_, ?_⟩
      · rw [hr2, hr1, List.append_assoc]
      · rw [ht2, ht1]
        simp [sumCounts, Nat.add_assoc]

/- ============================================================
   Handler-level helper lemmas.
   ============================================================ -/

theorem accountEvent_ne_truncate (env : Env) (acc : Account) (e : Event)
    (h : accountEvent env acc e) : e ≠ Event.truncate := by
  rcases h with h | h | ⟨dbs, _, db, _, _, hie⟩
  · subst h; simp
  · subst h; simp
  · rcases hie with h | h | h | h <;> subst h <;> simp

theorem dispatchConnector_none (env : Env) (acc : Account) (db : DBInstance)
    (creds : Creds) (h1 : hasSubstr "sqlserver" db.engine = false)
    (h2 : hasSubstr "postgres" db.engine = false) :
    dispatchConnector env acc db creds = ([], []) := by
  unfold dispatchConnector
  rw [if_neg (by simp [h1]), if_neg (by simp [h2])]

theorem dispatchConnector_no_write (env : Env) (acc : Account)
    (db : DBInstance) (creds : Creds) (a d : String) :
    Event.batchWrite a d ∉ (dispatchConnector env acc db creds).fst := by
  intro hmem
  rcases dispatchConnector_events env acc db creds _ hmem with h | h <;> cases h

/-- Every event of a run's trace is one of the four central-scope events or
an account event of one of the configured accounts. -/
theorem lambda_handler_events (env : Env) :
    ∀ e ∈ (lambda_handler env).snd,
      e = Event.fetchCentralSecret ∨ e = Event.centralConnect ∨
      e = Event.truncate ∨ e = Event.closeCentral ∨
      ∃ acc ∈ env.accounts, accountEvent env acc e := by
  rcases h1 : get_secret_local env.centralSecret with u | v
  · intro e he
    simp [lambda_handler, h1] at he
    exact Or.inl he
  · rcases v with _ | c
    · intro e he
      simp [lambda_handler, h1] at he
      exact Or.inl he
    · rcases h2 : get_central_connection env.hasPostgres env.centralConnect
        with u | u
      · intro e he
        simp [lambda_handler, h1, h2] at he
        rcases he with h | h
        · exact Or.inl h
        · exact Or.inr (Or.inl h)
      · rcases h3 : truncate_central_table env.truncateOk with u2 | u2
        · intro e he
          simp [lambda_handler, h1, h2, h3] at he
          rcases he with h | h | h
          · exact Or.inl h
          · exact Or.inr (Or.inl h)
          · exact Or.inr (Or.inr (Or.inl h))
        · obtain ⟨ex, htr, hev⟩ := runAccounts_trace env env.accounts
            ⟨0, [], [Event.fetchCentralSecret, Event.centralConnect,
              Event.truncate]⟩
          rcases h4 : runAccounts env env.accounts
              ⟨0, [], [Event.fetchCentralSecret, Event.centralConnect,
                Event.truncate]⟩ with tr | st
          · rw [h4] at htr
            simp only [trOf] at htr
            intro e he
            simp [lambda_handler, h1, h2, h3, h4, htr] at he
            rcases he with h | h | h | h
            · exact Or.inl h
            · exact Or.inr (Or.inl h)
            · exact Or.inr (Or.inr (Or.inl h))
            · obtain ⟨acc, hacc, hev2⟩ := hev e (by simpa using h)
              exact Or.inr (Or.inr (Or.inr (Or.inr ⟨acc, hacc, hev2⟩)))
          · rw [h4] at htr
            simp only [trOf] at htr
            intro e he
            simp [lambda_handler, h1, h2, h3, h4, htr] at he
            rcases he with h | h | h | h | h
            · exact Or.inl h
            · exact Or.inr (Or.inl h)
            · exact Or.inr (Or.inr (Or.inl h))
            · obtain ⟨acc, hacc, hev2⟩ := hev e (by simpa using h)
              exact Or.inr (Or.inr (Or.inr (Or.inr ⟨acc, hacc, hev2⟩)))
            · exact Or.inr (Or.inr (Or.inr (Or.inl h)))

/- ============================================================
   Claim theorems.
   ============================================================ -/

/-- C2 (counterexample): the canonical consolidated fields of the writer do
NOT include `UPDATE_DATE` and `INSTALL_DATE`.  A row carrying columns
`update_date` and `install_date` produces exactly the same consolidated
record as the empty row — both values are dropped, with every data field
absent — contradicting the claim that a source column whose case-normalised
name is `UPDATE_DATE` or `INSTALL_DATE` is written to that field. -/
theorem c2_counterexample :
    rowToParams "Acc" "db" [("update_date", "v"), ("install_date", "w")] =
      rowToParams "Acc" "db" [] ∧
    rowToParams "Acc" "db" [("update_date", "v"), ("install_date", "w")] =
      ⟨"Acc", "db", none, none, none, none, none⟩ := by
  constructor <;> decide

/-- C2 (amended): the writer upper-cases each row's keys and maps them onto
the consolidated fields ID, DESCRIPTION, STATUS, UDATE, INSTALLDATE: each
field receives the value of the last source column whose upper-cased name
equals the field name (last because the dict comprehension is last-wins),
any other source column is dropped, and a field with no matching column is
absent. -/
theorem c2_field_mapping (acc db : String) (row : Row) :
    rowToParams acc db row =
      ⟨acc, db, lastColumn row "ID", lastColumn row "DESCRIPTION",
        lastColumn row "STATUS", lastColumn row "UDATE",
        lastColumn row "INSTALLDATE"⟩ := by
  unfold rowToParams
  simp [dictGet_buildRowUpper]

/-- C9: key normalisation is case-insensitive — two rows that agree up to
the letter casing of their column keys (position by position, same values)
map to identical consolidated records. -/
theorem c9_case_insensitive (acc db : String) (r1 r2 : Row)
    (h : KeyCaseEquiv r1 r2) :
    rowToParams acc db r1 = rowToParams acc db r2 := by
  unfold rowToParams
  rw [buildRowUpper_congr h]

/-- Witness for C9 at concrete rows differing only in key casing. -/
theorem c9_case_insensitive_witness :
    rowToParams "Acc" "db" [("id", "7"), ("Description", "x")] =
      rowToParams "Acc" "db" [("ID", "7"), ("dEsCrIpTiOn", "x")] :=
  c9_case_insensitive "Acc" "db" _ _
    (List.Forall₂.cons ⟨by decide, rfl⟩
      (List.Forall₂.cons ⟨by decide, rfl⟩ List.Forall₂.nil))

/-- C3 (code bug): on a query failure after the connection was opened, both
connectors return the empty sequence but leave the connection unclosed —
the triple is (results, opened, closed) = ([], true, false), contradicting
the claimed unconditional close on every failure path. -/
theorem c3_connection_leak_on_query_failure :
    execute_mssql_full true ConnOutcome.queryFail "creds" (some "host")
        SOURCE_DB_NAME QUERY_ALL = ([], true, false) ∧
    execute_postgres_full true ConnOutcome.queryFail "creds" (some "host")
        SOURCE_DB_NAME QUERY_ALL = ([], true, false) :=
  ⟨rfl, rfl⟩

/-- C4 (counterexample): a secret whose `SecretString` fails to parse makes
`get_secret_local` raise (the `except` clause catches only `ClientError`),
contradicting the claim that every error is swallowed into `None`. -/
theorem c4_counterexample :
    get_secret_local (SecretOutcome.secretString none) = Except.error () ∧
    get_secret_local (SecretOutcome.secretString none) ≠
      Except.ok none := by
  constructor
  · rfl
  · intro h
    exact Except.noConfusion h

/-- C4 (amended): `get_secret_local` returns the parsed record on success,
returns `None` with a logged warning on `ClientError` and on a response
without `SecretString`, but propagates a JSON-parse error and any
non-`ClientError` exception; a caller that receives `None` for an eligible
instance skips it (state unchanged apart from the lookup event). -/
theorem c4_secret_resolver :
    (∀ c : Creds, get_secret_local (SecretOutcome.secretString (some c)) =
      Except.ok (some c)) ∧
    get_secret_local SecretOutcome.clientError = Except.ok none ∧
    get_secret_local SecretOutcome.noSecretString = Except.ok none ∧
    get_secret_local (SecretOutcome.secretString none) = Except.error () ∧
    get_secret_local SecretOutcome.otherError = Except.error () ∧
    (∀ (env : Env) (acc : Account) (db : DBInstance) (st : St),
      ineligibleB env db = false →
      env.instanceSecret acc.accId db.dbId = SecretOutcome.clientError →
      runInstance env acc db st =
        Except.ok ⟨st.total, st.report,
          st.tr ++ [Event.secretLookup acc.accId db.dbId]⟩) := by
  refine ⟨fun c => rfl, rfl, rfl, rfl, rfl, ?_⟩
  intro env acc db st hg hsec
  unfold runInstance
  rw [if_neg (by simp [hg]), hsec]
  rfl

/-- Witness for C4 (amended) at a concrete environment whose per-instance
secret lookup raises `ClientError`. -/
theorem c4_secret_resolver_witness :
    runInstance envSecretMissing ⟨"acct1", "Acc One"⟩
        ⟨"db9", "aurora-postgresql", some "h", "available"⟩ ⟨0, [], []⟩ =
      Except.ok ⟨0, [], [Event.secretLookup "acct1" "db9"]⟩ :=
  c4_secret_resolver.2.2.2.2.2 envSecretMissing ⟨"acct1", "Acc One"⟩
    ⟨"db9", "aurora-postgresql", some "h", "available"⟩ ⟨0, [], []⟩
    (by decide) rfl

/-- C1 (code bug): a central batch-write failure is NOT contained at
instance level.  In a run where everything succeeds except the batch write
for the one discovered instance, the re-raised exception escapes
`lambda_handler` uncaught (`raised`): the run produces no result object at
all — neither a success result nor a 500 — and the trace shows the run died
at the write, with no skip-and-continue and no `central_conn.close()`. -/
theorem c1_batch_write_failure_escapes :
    lambda_handler envWriteFail =
      (RunResult.raised,
        [Event.fetchCentralSecret, Event.centralConnect, Event.truncate,
         Event.assumeRole "acct1", Event.describeDBs "acct1",
         Event.secretLookup "acct1" "db9", Event.connPostgres "acct1" "db9",
         Event.batchWrite "acct1" "db9"]) := by
  decide

/-- C10 (counterexample): engine routing is not "any engine string
containing `postgres` goes to the PostgreSQL connector" — the `sqlserver`
substring is tested first, so an engine string containing both substrings
is routed to the MSSQL connector. -/
theorem c10_counterexample :
    hasSubstr "postgres" dbBothEngines.engine = true ∧
    (dispatchConnector envDispatch ⟨"acct1", "Acc One"⟩ dbBothEngines
        "ic").fst = [Event.connMssql "acct1" "dbx"] := by
  constructor <;> decide

/-- C10 (amended): dispatch is by substring match with `sqlserver` tested
first: an engine containing neither substring invokes no connector and the
instance degrades to a zero-row result (no connector event, no write, no
report line, no change to the total); an engine containing `postgres` and
not `sqlserver` is routed to the PostgreSQL connector. -/
theorem c10_engine_dispatch (env : Env) (acc : Account) (db : DBInstance)
    (creds : Creds) :
    (hasSubstr "sqlserver" db.engine = false →
      hasSubstr "postgres" db.engine = false →
      dispatchConnector env acc db creds = ([], [])) ∧
    (hasSubstr "sqlserver" db.engine = false →
      hasSubstr "postgres" db.engine = true →
      (dispatchConnector env acc db creds).fst =
        [Event.connPostgres acc.accId db.dbId]) ∧
    (∀ st : St, ineligibleB env db = false →
      get_secret_local (env.instanceSecret acc.accId db.dbId) =
        Except.ok (some creds) →
      hasSubstr "sqlserver" db.engine = false →
      hasSubstr "postgres" db.engine = false →
      runInstance env acc db st =
        Except.ok ⟨st.total, st.report,
          st.tr ++ [Event.secretLookup acc.accId db.dbId]⟩) := by
  refine ⟨?_, ?_, ?_⟩
  · intro h1 h2
    exact dispatchConnector_none env acc db creds h1 h2
  · intro h1 h2
    unfold dispatchConnector
    rw [if_neg (by simp [h1]), if_pos h2]
  · intro st hg hsec h1 h2
    unfold runInstance
    rw [if_neg (by simp [hg]), hsec]
    simp [dispatchConnector_none env acc db creds h1 h2]

/-- Witness for C10 (amended) at a concrete `mysql` instance. -/
theorem c10_engine_dispatch_witness :
    dispatchConnector envDispatch ⟨"acct1", "Acc One"⟩ dbMysql "ic" =
      ([], []) ∧
    runInstance envDispatch ⟨"acct1", "Acc One"⟩ dbMysql ⟨0, [], []⟩ =
      Except.ok ⟨0, [], [Event.secretLookup "acct1" "dbm"]⟩ :=
  ⟨(c10_engine_dispatch envDispatch ⟨"acct1", "Acc One"⟩ dbMysql "ic").1
      (by decide) (by decide),
    (c10_engine_dispatch envDispatch ⟨"acct1", "Acc One"⟩ dbMysql "ic").2.2
      ⟨0, [], []⟩ (by decide) rfl (by decide) (by decide)⟩

/-- C5 (counterexample): a run can get past credential resolution (the
central secret resolves) and still execute truncation zero times, not
exactly once — when the central connection attempt fails, the run returns
the fatal result before `truncate_central_table` is ever invoked. -/
theorem c5_counterexample :
    get_secret_local envConnFail.centralSecret = Except.ok (some "cc") ∧
    (lambda_handler envConnFail).fst =
      RunResult.fatal "Fatal error on connecting/cleaning up" ∧
    ((lambda_handler envConnFail).snd).count Event.truncate = 0 := by
  refine ⟨rfl, rfl, ?_⟩
  decide

/-- C5 (amended): in every run that gets past credential resolution AND
central connection establishment, truncation is invoked exactly once, and
it precedes every other event of the run — in particular every batch
write. -/
theorem c5_truncate_once_before_writes (env : Env)
    (hcred : ∃ c, get_secret_local env.centralSecret = Except.ok (some c))
    (hconn : get_central_connection env.hasPostgres env.centralConnect =
      Except.ok ()) :
    (∃ rest, (lambda_handler env).snd =
        [Event.fetchCentralSecret, Event.centralConnect, Event.truncate] ++
          rest ∧
      Event.truncate ∉ rest) ∧
    ((lambda_handler env).snd).count Event.truncate = 1 := by
  obtain ⟨c, hc⟩ := hcred
  have main : ∃ rest, (lambda_handler env).snd =
      [Event.fetchCentralSecret, Event.centralConnect, Event.truncate] ++
        rest ∧ Event.truncate ∉ rest := by
    rcases h3 : truncate_central_table env.truncateOk with u2 | u2
    · refine ⟨[], ?_, by simp⟩
      simp [lambda_handler, hc, hconn, h3]
    · obtain ⟨ex, htr, hev⟩ := runAccounts_trace env env.accounts
        ⟨0, [], [Event.fetchCentralSecret, Event.centralConnect,
          Event.truncate]⟩
      rcases h4 : runAccounts env env.accounts
          ⟨0, [], [Event.fetchCentralSecret, Event.centralConnect,
            Event.truncate]⟩ with tr | st
      · rw [h4] at htr
        simp only [trOf] at htr
        refine ⟨ex, ?_, ?_⟩
        · simp [lambda_handler, hc, hconn, h3, h4, htr]
        · intro hmem
          obtain ⟨acc, _, hev2⟩ := hev _ hmem
          exact accountEvent_ne_truncate env acc _ hev2 rfl
      · rw [h4] at htr
        simp only [trOf] at htr
        refine ⟨ex ++ [Event.closeCentral], ?_, ?_⟩
        · simp [lambda_handler, hc, hconn, h3, h4, htr]
        · intro hmem
          rcases List.mem_append.mp hmem with h | h
          · obtain ⟨acc, _, hev2⟩ := hev _ h
            exact accountEvent_ne_truncate env acc _ hev2 rfl
          · simp at h
  refine ⟨main, ?_⟩
  obtain ⟨rest, heq, hni⟩ := main
  rw [heq, List.count_append]
  rw [List.count_eq_zero.mpr hni]
  decide

/-- Witness for C5 (amended) at a fully successful concrete run. -/
theorem c5_truncate_once_witness :
    (∃ rest, (lambda_handler envHappy).snd =
        [Event.fetchCentralSecret, Event.centralConnect, Event.truncate] ++
          rest ∧
      Event.truncate ∉ rest) ∧
    ((lambda_handler envHappy).snd).count Event.truncate = 1 :=
  c5_truncate_once_before_writes envHappy ⟨"cc", rfl⟩ rfl

/-- C7: when the central secret resolves to nothing, or the central
connection fails, or truncation fails, the run returns a fatal (500) result
and its trace holds central-scope events only: no role assumption, no
discovery, no per-instance secret lookup, no connector call, and no batch
write happened. -/
theorem c7_fatal_before_tenants (env : Env)
    (h : get_secret_local env.centralSecret = Except.ok none ∨
      ((∃ c, get_secret_local env.centralSecret = Except.ok (some c)) ∧
        (get_central_connection env.hasPostgres env.centralConnect =
            Except.error () ∨
          (get_central_connection env.hasPostgres env.centralConnect =
              Except.ok () ∧
            truncate_central_table env.truncateOk = Except.error ())))) :
    (∃ b, (lambda_handler env).fst = RunResult.fatal b) ∧
      ∀ e ∈ (lambda_handler env).snd,
        e = Event.fetchCentralSecret ∨ e = Event.centralConnect ∨
        e = Event.truncate := by
  rcases h with h | ⟨⟨c, hc⟩, h⟩
  · constructor
    · exact ⟨"Error: No main repository credentials found.",
        by simp [lambda_handler, h]⟩
    · intro e he
      simp [lambda_handler, h] at he
      exact Or.inl he
  · rcases h with hcf | ⟨hco, ht⟩
    · constructor
      · exact ⟨"Fatal error on connecting/cleaning up",
          by simp [lambda_handler, hc, hcf]⟩
      · intro e he
        simp [lambda_handler, hc, hcf] at he
        rcases he with h | h
        · exact Or.inl h
        · exact Or.inr (Or.inl h)
    · constructor
      · exact ⟨"Fatal error on connecting/cleaning up",
          by simp [lambda_handler, hc, hco, ht]⟩
      · intro e he
        simp [lambda_handler, hc, hco, ht] at he
        rcases he with h | h | h
        · exact Or.inl h
        · exact Or.inr (Or.inl h)
        · exact Or.inr (Or.inr h)

/-- Witness for C7 at a concrete run whose central secret is missing. -/
theorem c7_fatal_before_tenants_witness :
    (∃ b, (lambda_handler envCredsMissing).fst = RunResult.fatal b) ∧
      ∀ e ∈ (lambda_handler envCredsMissing).snd,
        e = Event.fetchCentralSecret ∨ e = Event.centralConnect ∨
        e = Event.truncate :=
  c7_fatal_before_tenants envCredsMissing (Or.inl rfl)

/-- C6: if every discovered instance with identifier `d` under accounts
with identifier `a` is ineligible (blacklisted or not `available`), then
the run performs no per-instance secret lookup and no connector call for
that instance: both eligibility checks run before credential resolution
and connection. -/
theorem c6_ineligible_untouched (env : Env) (a d : String)
    (h : ∀ acc ∈ env.accounts, acc.accId = a →
      ∀ db ∈ (env.describeDBs a).getD [], db.dbId = d →
        ineligibleB env db = true) :
    Event.secretLookup a d ∉ (lambda_handler env).snd ∧
    Event.connMssql a d ∉ (lambda_handler env).snd ∧
    Event.connPostgres a d ∉ (lambda_handler env).snd := by
  have key : ∀ e, e ∈ (lambda_handler env).snd →
      (e = Event.secretLookup a d ∨ e = Event.connMssql a d ∨
        e = Event.connPostgres a d) → False := by
    intro e he hform
    rcases lambda_handler_events env e he with
      h0 | h0 | h0 | h0 | ⟨acc, hacc, hev⟩
    · subst h0; simp at hform
    · subst h0; simp at hform
    · subst h0; simp at hform
    · subst h0; simp at hform
    · rcases hev with h1 | h1 | ⟨dbs, hdbs, db, hdb, hinel, hie⟩
      · subst h1; simp at hform
      · subst h1; simp at hform
      · have had : acc.accId = a ∧ db.dbId = d := by
          rcases hie with h2 | h2 | h2 | h2 <;> subst h2 <;>
            rcases hform with h3 | h3 | h3 <;> simp_all
        obtain ⟨ha, hd⟩ := had
        rw [ha] at hdbs
        have hmem : db ∈ (env.describeDBs a).getD [] := by
          rw [hdbs]
          exact hdb
        have htrue := h acc hacc ha db hmem hd
        rw [htrue] at hinel
        exact Bool.noConfusion hinel
  exact ⟨fun he => key _ he (Or.inl rfl),
    fun he => key _ he (Or.inr (Or.inl rfl)),
    fun he => key _ he (Or.inr (Or.inr rfl))⟩

/-- Witness for C6 at a concrete run whose only instances with identifier
`db-1` are blacklisted or stopped. -/
theorem c6_ineligible_untouched_witness :
    Event.secretLookup "acct1" "db-1" ∉ (lambda_handler envBlacklisted).snd ∧
    Event.connMssql "acct1" "db-1" ∉ (lambda_handler envBlacklisted).snd ∧
    Event.connPostgres "acct1" "db-1" ∉ (lambda_handler envBlacklisted).snd :=
  c6_ineligible_untouched envBlacklisted "acct1" "db-1" (by decide)

/-- C8: in every run that returns a success result, the reported details
are the rendering of a structured report whose per-instance counts sum to
the returned total; and a connector result of zero rows leaves the total
and the report unchanged and appends no batch-write event (the dispatcher
itself never emits one). -/
theorem c8_report_consistency (env : Env) :
    (∀ tot dets, (lambda_handler env).fst = RunResult.success tot dets →
      ∃ rep, dets = rep.map renderLine ∧ tot = sumCounts rep) ∧
    (∀ (acc : Account) (db : DBInstance) (st : St) (creds : Creds),
      ineligibleB env db = false →
      get_secret_local (env.instanceSecret acc.accId db.dbId) =
        Except.ok (some creds) →
      (dispatchConnector env acc db creds).snd = [] →
      runInstance env acc db st =
        Except.ok ⟨st.total, st.report,
          st.tr ++ [Event.secretLookup acc.accId db.dbId] ++
            (dispatchConnector env acc db creds).fst⟩) ∧
    (∀ (acc : Account) (db : DBInstance) (creds : Creds) (a2 d2 : String),
      Event.batchWrite a2 d2 ∉ (dispatchConnector env acc db creds).fst) := by
  refine ⟨?_, ?_, ?_⟩
  · intro tot dets heq
    rcases h1 : get_secret_local env.centralSecret with u | v
    · simp [lambda_handler, h1] at heq
    · rcases v with _ | c
      · simp [lambda_handler, h1] at heq
      · rcases h2 : get_central_connection env.hasPostgres env.centralConnect
          with u | u
        · simp [lambda_handler, h1, h2] at heq
        · rcases h3 : truncate_central_table env.truncateOk with u2 | u2
          · simp [lambda_handler, h1, h2, h3] at heq
          · rcases h4 : runAccounts env env.accounts
                ⟨0, [], [Event.fetchCentralSecret, Event.centralConnect,
                  Event.truncate]⟩ with tr | st
            · simp [lambda_handler, h1, h2, h3, h4] at heq
            · obtain ⟨rep, hr, ht⟩ := runAccounts_val env env.accounts _ st h4
              simp only [List.nil_append] at hr
              simp only [Nat.zero_add] at ht
              simp [lambda_handler, h1, h2, h3, h4] at heq
              obtain ⟨hteq, hdeq⟩ := heq
              refine ⟨st.report, hdeq.symm, ?_⟩
              rw [← hteq, ht, hr]
  · intro acc db st creds hg hsec hemp
    unfold runInstance
    rw [if_neg (by simp [hg]), hsec]
    simp [hemp]
  · intro acc db creds a2 d2
    exact dispatchConnector_no_write env acc db creds a2 d2

/-- Witness for C8: the successful one-row run reports a total of 1 that
equals its single report line's count, and a zero-row connector result
leaves state untouched with no batch-write event. -/
theorem c8_report_consistency_witness :
    (∃ rep, ["db9: 1 records loaded"] = rep.map renderLine ∧
      1 = sumCounts rep) ∧
    runInstance envZeroRows ⟨"acct1", "Acc One"⟩
        ⟨"db9", "aurora-postgresql", some "h", "available"⟩ ⟨0, [], []⟩ =
      Except.ok ⟨0, [], [Event.secretLookup "acct1" "db9",
        Event.connPostgres "acct1" "db9"]⟩ := by
  constructor
  · exact (c8_report_consistency envHappy).1 1 ["db9: 1 records loaded"]
      (by decide)
  · have H := (c8_report_consistency envZeroRows).2.1 ⟨"acct1", "Acc One"⟩
      ⟨"db9", "aurora-postgresql", some "h", "available"⟩ ⟨0, [], []⟩ "ic"
      (by decide) rfl (by decide)
    exact H

end OrgDataLoad
